import Mathlib

/-!
Verification development for the PCE / Sobol sensitivity analysis script
`PCEsobol.py` (class `OpenTurnsPCESobol` and the module-level helper
functions `multiBootstrap` and `computeSobolIndicesConfidenceInterval`).

The script drives the OpenTURNS library.  The shallow embedding below keeps
the repository's own control flow, data handling and constants exact, and
models the OpenTURNS primitives the script calls as explicit Lean
definitions (for fully documented primitives such as `Sample.computeQuantile`
or `Interval.contains`) or as abstract parameters (for the polynomial-chaos
fitting engine, whose numerical output the repository treats as a black
box).  Machine reals are modelled by `ℚ`; the script's literal constants
(`1e-9`, `0.95`, `0.4`, `1e-4`) are carried as the exact rationals they
denote.
-/

/-- Model of an `openturns.Sample`: a dimension (number of components per
point, fixed at construction, e.g. `ot.Sample(0, dim_input)` has dimension
`dim_input` even with zero points), a list of rows, and a description
string (set with `setDescription`; the first entry is what
`getDescription()[0]` returns for a one-output sample). -/
structure OTSample where
  dim : ℕ
  rows : List (List ℚ)
  desc : String
deriving DecidableEq

/-- Marginal extraction `sample[:, i]`: the list of i-th components of the
rows (a dimension-one sample, kept as a bare list of values). -/
def sampleColumn (s : OTSample) (i : ℕ) : List ℚ :=
  s.rows.map (fun r => r.getD i 0)

/-- Insertion step for the ascending sort used to model the sorted copy of
a sample inside the empirical quantile computation. -/
def insertSorted (a : ℚ) : List ℚ → List ℚ
  | [] => [a]
  | b :: l => if a ≤ b then a :: b :: l else b :: insertSorted a l

/-- Ascending insertion sort on rationals. -/
def sortQ : List ℚ → List ℚ
  | [] => []
  | a :: l => insertSorted a (sortQ l)

/-- Model of `openturns.Sample.computeQuantile` (per-component empirical
quantile) on a dimension-one sample: sorts the values and linearly
interpolates the order statistics at rank `p * n - 1/2`, clamping to the
extreme order statistics near the tails.  On an empty sample the library
raises an exception, modelled by `none`. -/
def computeQuantile (xs : List ℚ) (p : ℚ) : Option ℚ :=
  match xs with
  | [] => none
  | _ :: _ =>
    let n : ℕ := xs.length
    let s := sortQ xs
    if p < 1 / (2 * (n : ℚ)) then some (s.getD 0 0)
    else if 1 - 1 / (2 * (n : ℚ)) ≤ p then some (s.getD (n - 1) 0)
    else
      let t := p * (n : ℚ) - 1 / 2
      let k := (⌊t⌋).toNat
      let b := t - (k : ℚ)
      some ((1 - b) * s.getD k 0 + b * s.getD (k + 1) 0)

/-- Exceptions observable at the boundary between the script and the
library.  `emptySampleQuantile` models the exception the library raises
when `computeQuantile` is applied to an empty sample.
`insufficientValidReplicates` is the dedicated error the specification
postulates for a bootstrap run with no retained replicate; no code path of
the script produces it. -/
inductive OTError
  | emptySampleQuantile
  | insufficientValidReplicates
deriving DecidableEq

/-- Quantile computation as performed inside
`computeSobolIndicesConfidenceInterval`: a raised empty-sample exception
propagates as an error. -/
def quantE (xs : List ℚ) (p : ℚ) : Except OTError ℚ :=
  match computeQuantile xs p with
  | none => Except.error OTError.emptySampleQuantile
  | some v => Except.ok v

/-- Sequencing of a list of fallible computations, stopping at the first
raised exception (the semantics of the script's sequential loops). -/
def seqE : List (Except OTError α) → Except OTError (List α)
  | [] => Except.ok []
  | x :: xs =>
    match x with
    | Except.error e => Except.error e
    | Except.ok a =>
      match seqE xs with
      | Except.error e => Except.error e
      | Except.ok l => Except.ok (a :: l)

/-- Model of an `openturns.Interval` over the input dimensions: lists of
lower and upper bounds. -/
structure IntervalQ where
  lb : List ℚ
  ub : List ℚ
deriving DecidableEq

/-- One iteration of the loop body of
`computeSobolIndicesConfidenceInterval` (source lines 410-417): for
dimension `i`, the four quantiles `fo_lb[i]`, `fo_ub[i]`, `to_lb[i]`,
`to_ub[i]`, computed at levels `beta` and `1 - beta`. -/
def ciRow (fo to_ : OTSample) (beta : ℚ) (i : ℕ) : Except OTError (ℚ × ℚ × ℚ × ℚ) :=
  match quantE (sampleColumn fo i) beta with
  | Except.error e => Except.error e
  | Except.ok folb =>
    match quantE (sampleColumn fo i) (1 - beta) with
    | Except.error e => Except.error e
    | Except.ok foub =>
      match quantE (sampleColumn to_ i) beta with
      | Except.error e => Except.error e
      | Except.ok tolb =>
        match quantE (sampleColumn to_ i) (1 - beta) with
        | Except.error e => Except.error e
        | Except.ok toub => Except.ok (folb, foub, tolb, toub)

/-- Translation of `computeSobolIndicesConfidenceInterval(fo_sample,
to_sample, alpha)` (source lines 380-422): with `beta = (1 - alpha) / 2`,
for each dimension `i` in `range(fo_sample.getDimension())` compute the
empirical quantiles of the two marginal samples at levels `beta` and
`1 - beta`, and assemble the two intervals. -/
def computeSobolIndicesConfidenceInterval (fo to_ : OTSample) (alpha : ℚ) :
    Except OTError (IntervalQ × IntervalQ) :=
  match seqE ((List.range fo.dim).map (ciRow fo to_ ((1 - alpha) / 2))) with
  | Except.error e => Except.error e
  | Except.ok rows =>
    Except.ok
      (⟨rows.map (fun r => r.1), rows.map (fun r => r.2.1)⟩,
       ⟨rows.map (fun r => r.2.2.1), rows.map (fun r => r.2.2.2)⟩)

/-- The call form `computeSobolIndicesConfidenceInterval(fo_sample,
to_sample)` with the `alpha` argument left at its declared default
`alpha=0.95` (source line 380). -/
def computeSobolIndicesConfidenceIntervalDefault (fo to_ : OTSample) :
    Except OTError (IntervalQ × IntervalQ) :=
  computeSobolIndicesConfidenceInterval fo to_ (19 / 20)

/-- Row selection `Z[selection]` applied to a sample stored as a list of
rows: row `k` of the result is row `selection[k]` of `Z`. -/
def sampleSelect (Z : List (List ℚ)) (selection : List ℕ) : List (List ℚ) :=
  selection.map (fun k => Z.getD k [])

/-- Translation of `multiBootstrap(X, Y)` (source lines 360-377) at its
two-sample call site: a single index selection is generated by
`ot.BootstrapExperiment.GenerateSelection(size, size)` with
`size = data[0].getSize()` and applied to both samples.  The randomly
generated selection is an explicit argument here. -/
def multiBootstrap (X Y : List (List ℚ)) (selection : List ℕ) :
    List (List ℚ) × List (List ℚ) :=
  (sampleSelect X selection, sampleSelect Y selection)

/-- Characterization of the output of
`ot.BootstrapExperiment.GenerateSelection(n, n)`: `n` independent draws
with replacement of row indices below `n`. -/
def isBootstrapSelection (n : ℕ) (sel : List ℕ) : Prop :=
  sel.length = n ∧ ∀ k ∈ sel, k < n

/-- Adaptive strategy selector of `_computeChaosSensitivity` (the string
argument `strategy`, either `'fixed'` or `'cleaning'`). -/
inductive FitStrategy
  | fixed
  | cleaning
deriving DecidableEq

/-- Per-call configuration of `_computeChaosSensitivity`: the strategy
string and the q-quasi-norm parameter of the hyperbolic anisotropic
enumeration of basis terms. -/
structure FitConfig where
  strategy : FitStrategy
  q : ℚ
deriving DecidableEq

/-- The declared defaults of `_computeChaosSensitivity(self, inputSample,
outputSample, strategy='cleaning', q=0.4, verbose=False)` (source lines
143-144): calling the method without the keyword arguments uses the
cleaning strategy with q = 0.4. -/
def defaultFitConfig : FitConfig :=
  ⟨FitStrategy.cleaning, 2 / 5⟩

/-- Adaptive strategy object handed to `ot.FunctionalChaosAlgorithm`:
either a `FixedStrategy` keeping the first `indexMax` terms, or a
`CleaningStrategy` with its maximum dimension, maximum size and
significance factor. -/
inductive AdaptiveStrategy
  | fixedStrategy (indexMax : ℕ)
  | cleaningStrategy (maximumDimension maximumSize : ℕ) (significanceFactor : ℚ)
deriving DecidableEq

/-- Strategy construction of `_computeChaosSensitivity` (source lines
161-181): the fixed branch keeps the first
`enumerateFunction.getStrataCumulatedCardinal(2)` terms (degree = 2); the
cleaning branch uses `maximumDimension = 200`, `maximumSize = 20`,
`significanceFactor = 1e-4`.  `strataCard d q deg` abstracts the
enumeration cardinal of `HyperbolicAnisotropicEnumerateFunction(d, q)`. -/
def adaptiveStrategyOf (strataCard : ℕ → ℚ → ℕ → ℕ) (d : ℕ) (cfg : FitConfig) :
    AdaptiveStrategy :=
  match cfg.strategy with
  | FitStrategy.fixed => AdaptiveStrategy.fixedStrategy (strataCard d cfg.q 2)
  | FitStrategy.cleaning => AdaptiveStrategy.cleaningStrategy 200 20 (1 / 10000)

/-- Fit-engine error kinds postulated by the specification
(`UnderdeterminedFitError`, `DegenerateSurrogateError`); no code path of
the script produces either. -/
inductive FitError
  | underdeterminedFit
  | degenerateSurrogate
deriving DecidableEq

/-- Observable events of one `_computeChaosSensitivity` call, in
execution order: basis construction (source lines 154-159), the strategy
branch with its unconditional `print('indexMax', indexMax)` in the fixed
case, algorithm construction, the least-squares solve `algo.run()`
(source line 189), and the Sobol index extraction (source lines 193-198).
`warnOverfitting` and `raiseFitError` are events the specification
postulates; the translation shows where they would have to occur. -/
inductive PipelineStep
  | buildBasis
  | printIndexMax (indexMax : ℕ)
  | warnOverfitting
  | buildFixedStrategy (indexMax : ℕ)
  | buildCleaningStrategy (maximumDimension maximumSize : ℕ) (significanceFactor : ℚ)
  | buildAlgorithm
  | runSolve
  | extractIndices
  | raiseFitError (e : FitError)
deriving DecidableEq

/-- Discriminator for error-raising events. -/
def isRaiseStep : PipelineStep → Bool
  | PipelineStep.raiseFitError _ => true
  | _ => false

/-- Abstract interface to the OpenTURNS primitives used by
`_computeChaosSensitivity`: running the functional chaos algorithm on the
two samples with an adaptive strategy (`R` is the opaque result object),
extracting the fitted metamodel (`M`), building the
`FunctionalChaosSobolIndices` object (`C`), reading the first-order and
total-order index of one input dimension from it, and the strata cardinal
of the hyperbolic enumeration (dimension, q, degree). -/
structure ChaosLibrary (R M C : Type) where
  runAlgorithm : OTSample → OTSample → AdaptiveStrategy → R
  getMetaModel : R → M
  functionalChaosSobolIndices : R → C
  getSobolIndex : C → ℕ → ℚ
  getSobolTotalIndex : C → ℕ → ℚ
  strataCumulatedCardinal : ℕ → ℚ → ℕ → ℕ

/-- Mutable state of the `OpenTurnsPCESobol` analysis object touched by
`_computeChaosSensitivity`: the dictionaries `self.metamodel` and
`self.chaosSI`, keyed by output name. -/
structure OTState (M C : Type) where
  metamodel : List (String × M)
  chaosSI : List (String × C)
deriving DecidableEq

/-- Assignment `d[k] = v` on a dictionary modelled as an association
list: an existing binding of `k` is overwritten in place, otherwise the
new binding is appended. -/
def dictSet : List (String × α) → String → α → List (String × α)
  | [], k, v => [(k, v)]
  | p :: t, k, v => if p.1 = k then (k, v) :: t else p :: dictSet t k v

/-- Lookup `d[k]` on a dictionary modelled as an association list. -/
def dictGet : List (String × α) → String → Option α
  | [], _ => none
  | p :: t, k => if p.1 = k then some p.2 else dictGet t k

/-- Result of one `_computeChaosSensitivity` call: the updated analysis
state, the returned `S1` and `ST` lists, and the trace of observable
events. -/
structure FitOutput (M C : Type) where
  state : OTState M C
  S1 : List ℚ
  ST : List ℚ
  trace : List PipelineStep
deriving DecidableEq

/-- Translation of `_computeChaosSensitivity(inputSample, outputSample,
strategy, q)` (source lines 143-199): build the orthogonal product basis,
select the adaptive strategy (printing `indexMax` in the fixed branch),
run the functional chaos algorithm, store the fitted metamodel in
`self.metamodel[oo]` and the sensitivity object in `self.chaosSI[oo]`
(with `oo` the output sample's description), and return the first-order
and total-order Sobol indices of the `inputSample.dim` input dimensions.
The engine itself is the abstract library `lib`. -/
def computeChaosSensitivityAux (lib : ChaosLibrary R M C) (st : OTState M C)
    (inputSample outputSample : OTSample) (cfg : FitConfig) : FitOutput M C :=
  let d := inputSample.dim
  let strat := adaptiveStrategyOf lib.strataCumulatedCardinal d cfg
  let stratTrace : List PipelineStep :=
    match cfg.strategy with
    | FitStrategy.fixed =>
        [PipelineStep.printIndexMax (lib.strataCumulatedCardinal d cfg.q 2),
         PipelineStep.buildFixedStrategy (lib.strataCumulatedCardinal d cfg.q 2)]
    | FitStrategy.cleaning =>
        [PipelineStep.buildCleaningStrategy 200 20 (1 / 10000)]
  let oo := outputSample.desc
  let result := lib.runAlgorithm inputSample outputSample strat
  let mm := lib.getMetaModel result
  let si := lib.functionalChaosSobolIndices result
  { state := ⟨dictSet st.metamodel oo mm, dictSet st.chaosSI oo si⟩
    S1 := (List.range d).map (lib.getSobolIndex si)
    ST := (List.range d).map (lib.getSobolTotalIndex si)
    trace := [PipelineStep.buildBasis] ++ stratTrace ++
      [PipelineStep.buildAlgorithm, PipelineStep.runSolve, PipelineStep.extractIndices] }

/-- Membership test `unit_eps.contains(v)` for the interval
`ot.Interval([1e-9] * dim_input, [1 - 1e-9] * dim_input)` (source line
230): every component lies within the closed bounds.  The points tested
are the index vectors returned by the fit, which have dimension `d` by
construction. -/
def unitEpsContains (d : ℕ) (v : List ℚ) : Bool :=
  v.length == d &&
    v.all (fun t => decide ((1 / 1000000000 : ℚ) ≤ t) && decide (t ≤ 1 - 1 / 1000000000))

/-- Decidable equality of fallible results, used to evaluate concrete
instances of the bootstrap pipeline. -/
instance {ε α : Type} [DecidableEq ε] [DecidableEq α] : DecidableEq (Except ε α) :=
  fun x y =>
    match x, y with
    | Except.error e, Except.error f =>
      if h : e = f then Decidable.isTrue (by rw [h])
      else Decidable.isFalse (fun hc => h (Except.error.inj hc))
    | Except.error _, Except.ok _ => Decidable.isFalse (fun hc => Except.noConfusion hc)
    | Except.ok _, Except.error _ => Decidable.isFalse (fun hc => Except.noConfusion hc)
    | Except.ok a, Except.ok b =>
      if h : a = b then Decidable.isTrue (by rw [h])
      else Decidable.isFalse (fun hc => h (Except.ok.inj hc))

/-- Result of the per-output bootstrap procedure: the number of executed
replicate attempts, the two accumulated samples of retained index
vectors, the fit configuration used by each replicate call, and the
confidence-interval computation's outcome. -/
structure BootstrapOutput where
  attempts : ℕ
  foSample : OTSample
  toSample : OTSample
  configsUsed : List FitConfig
  interval : Except OTError (IntervalQ × IntervalQ)
deriving DecidableEq

/-- Accumulator pass of the replicate loop (source lines 231-236):
`for i in range(bootstrap_size)` draw a resample, refit, and append the
two index vectors to `fo_sample` and `to_sample` exactly when both lie in
the tolerance interval; a failing replicate is skipped and never retried.
`fit i` is the pair of index vectors produced by iteration i's
`multiBootstrap` draw followed by `self._computeChaosSensitivity(X_boot,
Y_boot)`; the loop records that each such call passes no strategy
arguments, hence uses `defaultFitConfig`. -/
def bootstrapAccum (d B : ℕ) (fit : ℕ → List ℚ × List ℚ) :
    ℕ × List (List ℚ) × List (List ℚ) × List FitConfig :=
  (List.range B).foldl
    (fun acc i =>
      let r := fit i
      if unitEpsContains d r.1 && unitEpsContains d r.2 then
        (acc.1 + 1, acc.2.1 ++ [r.1], acc.2.2.1 ++ [r.2], acc.2.2.2 ++ [defaultFitConfig])
      else
        (acc.1 + 1, acc.2.1, acc.2.2.1, acc.2.2.2 ++ [defaultFitConfig]))
    (0, [], [], [])

/-- Translation of the body of `computeBootstrapChaosSobolIndices` for one
output quantity (source lines 227-243): start from `ot.Sample(0,
dim_input)` accumulators, run the replicate loop, then compute the
confidence intervals with `computeSobolIndicesConfidenceInterval(fo_sample,
to_sample)` (default confidence level). -/
def computeBootstrapChaosSobolIndices (d B : ℕ) (fit : ℕ → List ℚ × List ℚ) :
    BootstrapOutput :=
  let acc := bootstrapAccum d B fit
  let fo : OTSample := ⟨d, acc.2.1, ""⟩
  let to_ : OTSample := ⟨d, acc.2.2.1, ""⟩
  { attempts := acc.1
    foSample := fo
    toSample := to_
    configsUsed := acc.2.2.2
    interval := computeSobolIndicesConfidenceIntervalDefault fo to_ }

/-- Concrete instantiation of the abstract library, used to evaluate the
pipeline on explicit inputs: the opaque result objects are natural
numbers, every index read returns 0, and the hyperbolic enumeration
reports 500 candidate terms up to degree 2 (the underdetermined scenario
of the specification). -/
def modelLib : ChaosLibrary ℕ ℕ ℕ :=
  ⟨fun _ _ _ => 0, fun r => r, fun r => r, fun _ _ => 0, fun _ _ => 0, fun _ _ _ => 500⟩

/-- Analysis state with empty `self.metamodel` and `self.chaosSI`
dictionaries. -/
def emptyState : OTState ℕ ℕ := ⟨[], []⟩

/-- Analysis state already holding records for an unrelated output. -/
def otherState : OTState ℕ ℕ := ⟨[("other", 7)], [("other", 8)]⟩

/-- A 50-row design sample in dimension 9 (the N = 50 scenario of the
specification). -/
def sampleX50 : OTSample := ⟨9, List.replicate 50 (List.replicate 9 0), "X"⟩

/-- A 2000-row design sample in dimension 9 (a sample count comfortably
above twice the 500-term candidate basis). -/
def sampleX2000 : OTSample := ⟨9, List.replicate 2000 (List.replicate 9 0), "X"⟩

/-- A 50-value response sample for the output named dmax. -/
def sampleY50 : OTSample := ⟨1, List.replicate 50 [0], "dmax"⟩

/-- The fixed-strategy configuration with the default q. -/
def cfgFixed : FitConfig := ⟨FitStrategy.fixed, 2 / 5⟩

/-- Replicate oracle whose index vectors always fall outside the
tolerance interval, as happens for numerically degenerate refits: every
replicate is discarded. -/
def degenerateFit : ℕ → List ℚ × List ℚ := fun _ => ([2], [2])

/-- A one-dimensional sample of two retained replicate values, for
evaluating the confidence-interval computation on concrete data. -/
def sampleFoW : OTSample := ⟨1, [[0], [1]], ""⟩

/-- Successful quantile computation inside the interval loop is exactly a
defined empirical quantile. -/
theorem quantE_eq_ok {xs : List ℚ} {p v : ℚ} :
    quantE xs p = Except.ok v ↔ computeQuantile xs p = some v := by
  unfold quantE
  cases h : computeQuantile xs p <;> simp

/-- Sequencing a list of fallible computations succeeds with the list of
their values: elementwise inversion. -/
theorem seqE_ok_get {es : List (Except OTError α)} {l : List α}
    (h : seqE es = Except.ok l) : ∀ i, es.get? i = (l.get? i).map Except.ok := by
  induction es generalizing l with
  | nil =>
    obtain rfl : ([] : List α) = l := Except.ok.inj h
    intro i
    simp
  | cons x xs ih =>
    cases x with
    | error e => simp [seqE] at h
    | ok a =>
      cases hs : seqE xs with
      | error e => simp [seqE, hs] at h
      | ok t =>
        simp only [seqE, hs] at h
        obtain rfl : a :: t = l := Except.ok.inj h
        intro i
        cases i with
        | zero => simp
        | succ j => simpa using ih hs j

/-- Inversion of one successful iteration of the confidence-interval
loop: the four stored values are the four empirical quantiles. -/
theorem ciRow_ok {fo to_ : OTSample} {beta : ℚ} {i : ℕ} {r : ℚ × ℚ × ℚ × ℚ}
    (h : ciRow fo to_ beta i = Except.ok r) :
    computeQuantile (sampleColumn fo i) beta = some r.1 ∧
    computeQuantile (sampleColumn fo i) (1 - beta) = some r.2.1 ∧
    computeQuantile (sampleColumn to_ i) beta = some r.2.2.1 ∧
    computeQuantile (sampleColumn to_ i) (1 - beta) = some r.2.2.2 := by
  unfold ciRow at h
  cases h1 : quantE (sampleColumn fo i) beta with
  | error e => rw [h1] at h; simp at h
  | ok a =>
    rw [h1] at h
    cases h2 : quantE (sampleColumn fo i) (1 - beta) with
    | error e => rw [h2] at h; simp at h
    | ok b =>
      rw [h2] at h
      cases h3 : quantE (sampleColumn to_ i) beta with
      | error e => rw [h3] at h; simp at h
      | ok c =>
        rw [h3] at h
        cases h4 : quantE (sampleColumn to_ i) (1 - beta) with
        | error e => rw [h4] at h; simp at h
        | ok dv =>
          rw [h4] at h
          obtain rfl : (a, b, c, dv) = r := Except.ok.inj h
          exact ⟨quantE_eq_ok.mp h1, quantE_eq_ok.mp h2,
            quantE_eq_ok.mp h3, quantE_eq_ok.mp h4⟩

/-- With a positive input dimension and empty accumulated samples, the
confidence-interval computation raises the empty-sample quantile
exception. -/
theorem confidenceInterval_empty {d : ℕ} (hd : 0 < d) (s s' : String) (alpha : ℚ) :
    computeSobolIndicesConfidenceInterval ⟨d, [], s⟩ ⟨d, [], s'⟩ alpha =
      Except.error OTError.emptySampleQuantile := by
  cases d with
  | zero => exact absurd hd (lt_irrefl 0)
  | succ m =>
    simp [computeSobolIndicesConfidenceInterval, List.range_succ_eq_map, ciRow,
      quantE, computeQuantile, sampleColumn, seqE]

/-- Reading back the key just assigned returns the assigned value. -/
theorem dictGet_dictSet_self (d : List (String × α)) (k : String) (v : α) :
    dictGet (dictSet d k v) k = some v := by
  induction d with
  | nil => simp [dictSet, dictGet]
  | cons p t ih =>
    by_cases hp : p.1 = k
    · simp [dictSet, dictGet, hp]
    · simp [dictSet, dictGet, hp, ih]

/-- Assignment of one key leaves every other key's binding unchanged. -/
theorem dictGet_dictSet_ne (d : List (String × α)) (k k' : String) (v : α)
    (hk : k' ≠ k) : dictGet (dictSet d k v) k' = dictGet d k' := by
  have hk' : ¬ k = k' := fun h => hk h.symm
  induction d with
  | nil => simp [dictSet, dictGet, hk']
  | cons p t ih =>
    by_cases hp : p.1 = k
    · have hp' : ¬ p.1 = k' := by rw [hp]; exact hk'
      simp [dictSet, dictGet, hp, hp', hk']
    · by_cases hq : p.1 = k'
      · simp [dictSet, dictGet, hp, hq, hk, hk']
      · simp [dictSet, dictGet, hp, hq, ih]

/-- The row pair read at a common valid index of two lists is one of the
zipped pairs. -/
theorem pair_getD_mem_zip : ∀ (X Y : List (List ℚ)) (j : ℕ), j < X.length →
    j < Y.length → (X.getD j [], Y.getD j []) ∈ X.zip Y := by
  intro X
  induction X with
  | nil => intro Y j h _; simp at h
  | cons x xs ih =>
    intro Y j hX hY
    cases Y with
    | nil => simp at hY
    | cons y ys =>
      cases j with
      | zero => simp
      | succ m =>
        have hm := ih ys m (by simpa using hX) (by simpa using hY)
        simpa using List.mem_cons_of_mem (x, y) hm

/-- One more iteration of the replicate loop processes attempt `n` after
the first `n` attempts. -/
theorem bootstrapAccum_succ (d n : ℕ) (fit : ℕ → List ℚ × List ℚ) :
    bootstrapAccum d (n + 1) fit =
      (let a := bootstrapAccum d n fit
       if unitEpsContains d (fit n).1 && unitEpsContains d (fit n).2 then
         (a.1 + 1, a.2.1 ++ [(fit n).1], a.2.2.1 ++ [(fit n).2],
          a.2.2.2 ++ [defaultFitConfig])
       else
         (a.1 + 1, a.2.1, a.2.2.1, a.2.2.2 ++ [defaultFitConfig])) := by
  unfold bootstrapAccum
  rw [List.range_succ, List.foldl_append]
  rfl

/-- Closed form of the replicate loop: `B` attempts are executed, the
retained rows are the filtered-then-mapped index vectors in iteration
order, and every replicate call uses the default fit configuration. -/
theorem bootstrapAccum_spec (d B : ℕ) (fit : ℕ → List ℚ × List ℚ) :
    bootstrapAccum d B fit =
      (B,
       ((List.range B).filter
          (fun i => unitEpsContains d (fit i).1 && unitEpsContains d (fit i).2)).map
         (fun i => (fit i).1),
       ((List.range B).filter
          (fun i => unitEpsContains d (fit i).1 && unitEpsContains d (fit i).2)).map
         (fun i => (fit i).2),
       List.replicate B defaultFitConfig) := by
  induction B with
  | zero => rfl
  | succ n ih =>
    rw [bootstrapAccum_succ, ih]
    cases hk : unitEpsContains d (fit n).1 && unitEpsContains d (fit n).2 with
    | false =>
      simp [List.range_succ, List.filter_append, List.map_append, hk,
        List.replicate_succ']
    | true =>
      simp [List.range_succ, List.filter_append, List.map_append, hk,
        List.replicate_succ']

/-- C1: whenever the confidence-interval computation returns, it returns,
per input dimension and per index type, the empirical quantiles of the
retained replicate values at levels beta and 1 - beta with
beta = (1 - alpha) / 2, where alpha is the requested confidence level;
the default call uses alpha = 0.95. -/
theorem confidenceInterval_isQuantiles (fo to_ : OTSample) (alpha : ℚ)
    (foI toI : IntervalQ)
    (h : computeSobolIndicesConfidenceInterval fo to_ alpha = Except.ok (foI, toI))
    (i : ℕ) (hi : i < fo.dim) :
    foI.lb.get? i = computeQuantile (sampleColumn fo i) ((1 - alpha) / 2) ∧
    foI.ub.get? i = computeQuantile (sampleColumn fo i) (1 - (1 - alpha) / 2) ∧
    toI.lb.get? i = computeQuantile (sampleColumn to_ i) ((1 - alpha) / 2) ∧
    toI.ub.get? i = computeQuantile (sampleColumn to_ i) (1 - (1 - alpha) / 2) ∧
    computeSobolIndicesConfidenceIntervalDefault fo to_ =
      computeSobolIndicesConfidenceInterval fo to_ (19 / 20) := by
  unfold computeSobolIndicesConfidenceInterval at h
  split at h
  · exact absurd h (by simp)
  · rename_i rows hrows
    have h' := Except.ok.inj h
    obtain ⟨hfo, hto⟩ := Prod.mk.inj h'
    subst hfo
    subst hto
    have hget := seqE_ok_get hrows i
    rw [List.get?_map, List.get?_range hi] at hget
    cases hr : rows.get? i with
    | none => rw [hr] at hget; simp at hget
    | some r =>
      rw [hr] at hget
      simp only [Option.map_some'] at hget
      have hcr : ciRow fo to_ ((1 - alpha) / 2) i = Except.ok r :=
        Option.some.inj hget
      obtain ⟨e1, e2, e3, e4⟩ := ciRow_ok hcr
      refine ⟨?_, ?_, ?_, ?_, rfl⟩
      · rw [List.get?_map, hr, e1]; simp
      · rw [List.get?_map, hr, e2]; simp
      · rw [List.get?_map, hr, e3]; simp
      · rw [List.get?_map, hr, e4]; simp

/-- Witness for C1 at a concrete one-dimensional pair of replicate
samples and the default confidence level. -/
theorem confidenceInterval_isQuantiles_witness :
    computeSobolIndicesConfidenceInterval sampleFoW sampleFoW (19 / 20) =
      Except.ok (⟨[0], [1]⟩, ⟨[0], [1]⟩) ∧
    0 < sampleFoW.dim ∧
    ((⟨[0], [1]⟩ : IntervalQ).lb.get? 0 =
        computeQuantile (sampleColumn sampleFoW 0) ((1 - 19 / 20) / 2) ∧
      (⟨[0], [1]⟩ : IntervalQ).ub.get? 0 =
        computeQuantile (sampleColumn sampleFoW 0) (1 - (1 - 19 / 20) / 2) ∧
      (⟨[0], [1]⟩ : IntervalQ).lb.get? 0 =
        computeQuantile (sampleColumn sampleFoW 0) ((1 - 19 / 20) / 2) ∧
      (⟨[0], [1]⟩ : IntervalQ).ub.get? 0 =
        computeQuantile (sampleColumn sampleFoW 0) (1 - (1 - 19 / 20) / 2) ∧
      computeSobolIndicesConfidenceIntervalDefault sampleFoW sampleFoW =
        computeSobolIndicesConfidenceInterval sampleFoW sampleFoW (19 / 20)) := by
  have hci : computeSobolIndicesConfidenceInterval sampleFoW sampleFoW (19 / 20) =
      Except.ok (⟨[0], [1]⟩, ⟨[0], [1]⟩) := by
    norm_num [computeSobolIndicesConfidenceInterval, ciRow, quantE, computeQuantile,
      sampleColumn, sampleFoW, seqE, sortQ, insertSorted, List.range_succ]
  exact ⟨hci, by decide,
    confidenceInterval_isQuantiles sampleFoW sampleFoW (19 / 20)
      ⟨[0], [1]⟩ ⟨[0], [1]⟩ hci 0 (by decide)⟩

/-- C2: one bootstrap draw applies the same row-index selection to the
design matrix and to the response sample, so every resampled (input row,
output value) pair at a given position is a pair of the original data. -/
theorem multiBootstrap_preservesPairing (X Y : List (List ℚ)) (sel : List ℕ)
    (hsel : isBootstrapSelection X.length sel) (hXY : X.length = Y.length) :
    (multiBootstrap X Y sel).1.length = X.length ∧
    (multiBootstrap X Y sel).2.length = X.length ∧
    ∀ j, j < X.length →
      ((multiBootstrap X Y sel).1.getD j [], (multiBootstrap X Y sel).2.getD j []) ∈
        X.zip Y := by
  obtain ⟨hlen, hbound⟩ := hsel
  refine ⟨by simp [multiBootstrap, sampleSelect, hlen],
    by simp [multiBootstrap, sampleSelect, hlen], ?_⟩
  intro j hj
  have hj' : j < sel.length := by rw [hlen]; exact hj
  have hkX : sel.get ⟨j, hj'⟩ < X.length := hbound _ (sel.get_mem j hj')
  have hkY : sel.get ⟨j, hj'⟩ < Y.length := hXY ▸ hkX
  have h1 : (multiBootstrap X Y sel).1.getD j [] = X.getD (sel.get ⟨j, hj'⟩) [] := by
    simp [multiBootstrap, sampleSelect, List.getD_eq_getElem?_getD, List.getElem?_map,
      List.getElem?_eq_getElem hj']
  have h2 : (multiBootstrap X Y sel).2.getD j [] = Y.getD (sel.get ⟨j, hj'⟩) [] := by
    simp [multiBootstrap, sampleSelect, List.getD_eq_getElem?_getD, List.getElem?_map,
      List.getElem?_eq_getElem hj']
  rw [h1, h2]
  exact pair_getD_mem_zip X Y _ hkX hkY

/-- Witness for C2 at a concrete two-row data set and the concrete
selection drawing row 1 twice. -/
theorem multiBootstrap_preservesPairing_witness :
    isBootstrapSelection ([[1], [2]] : List (List ℚ)).length [1, 1] ∧
    ([[1], [2]] : List (List ℚ)).length = ([[10], [20]] : List (List ℚ)).length ∧
    ((multiBootstrap [[1], [2]] [[10], [20]] [1, 1]).1.length =
        ([[1], [2]] : List (List ℚ)).length ∧
      (multiBootstrap [[1], [2]] [[10], [20]] [1, 1]).2.length =
        ([[1], [2]] : List (List ℚ)).length ∧
      ∀ j, j < ([[1], [2]] : List (List ℚ)).length →
        ((multiBootstrap [[1], [2]] [[10], [20]] [1, 1]).1.getD j [],
         (multiBootstrap [[1], [2]] [[10], [20]] [1, 1]).2.getD j []) ∈
          ([[1], [2]] : List (List ℚ)).zip [[10], [20]]) :=
  ⟨⟨rfl, by decide⟩, rfl,
    multiBootstrap_preservesPairing [[1], [2]] [[10], [20]] [1, 1]
      ⟨rfl, by decide⟩ rfl⟩

/-- C3: the replicate loop executes exactly B attempts, the retained
collections list, in iteration order, exactly the index-vector pairs of
the attempts whose first-order and total-order vectors both lie inside
the closed tolerance interval from 1e-9 to 1 - 1e-9 in every dimension
(discarded attempts are skipped, never retried), and the retained
collection size is at most B. -/
theorem bootstrapLoop_retention (d B : ℕ) (fit : ℕ → List ℚ × List ℚ) :
    (computeBootstrapChaosSobolIndices d B fit).attempts = B ∧
    (computeBootstrapChaosSobolIndices d B fit).foSample.rows =
      ((List.range B).filter
        (fun i => unitEpsContains d (fit i).1 && unitEpsContains d (fit i).2)).map
        (fun i => (fit i).1) ∧
    (computeBootstrapChaosSobolIndices d B fit).toSample.rows =
      ((List.range B).filter
        (fun i => unitEpsContains d (fit i).1 && unitEpsContains d (fit i).2)).map
        (fun i => (fit i).2) ∧
    (computeBootstrapChaosSobolIndices d B fit).foSample.rows.length ≤ B := by
  have hs := bootstrapAccum_spec d B fit
  refine ⟨by simp [computeBootstrapChaosSobolIndices, hs],
    by simp [computeBootstrapChaosSobolIndices, hs],
    by simp [computeBootstrapChaosSobolIndices, hs], ?_⟩
  have hle := List.length_filter_le
    (fun i => unitEpsContains d (fit i).1 && unitEpsContains d (fit i).2)
    (List.range B)
  simpa [computeBootstrapChaosSobolIndices, hs] using hle

/-- The index value 2 lies outside the tolerance interval, so a
one-dimensional replicate with value 2 is discarded. -/
theorem unitEpsContains_two : unitEpsContains 1 [2] = false := by
  simp [unitEpsContains]
  norm_num

/-- C4 (amended): when every one of the B replicate attempts is
discarded, the pipeline still runs all B attempts and then fails inside
the confidence-interval computation with the empty-sample quantile
exception (there is no dedicated insufficient-replicates error), rather
than returning an interval. -/
theorem bootstrap_allDiscarded_raisesEmptySample (d B : ℕ)
    (fit : ℕ → List ℚ × List ℚ) (hd : 0 < d)
    (hall : ∀ i, i < B →
      (unitEpsContains d (fit i).1 && unitEpsContains d (fit i).2) = false) :
    (computeBootstrapChaosSobolIndices d B fit).attempts = B ∧
    (computeBootstrapChaosSobolIndices d B fit).interval =
      Except.error OTError.emptySampleQuantile := by
  have hs := bootstrapAccum_spec d B fit
  have hfilter : (List.range B).filter
      (fun i => unitEpsContains d (fit i).1 && unitEpsContains d (fit i).2) = [] := by
    refine List.filter_eq_nil.mpr ?_
    intro a ha
    rw [hall a (List.mem_range.mp ha)]
    simp
  constructor
  · simp [computeBootstrapChaosSobolIndices, hs]
  · simp only [computeBootstrapChaosSobolIndices, hs, hfilter, List.map_nil]
    simpa [computeSobolIndicesConfidenceIntervalDefault] using
      confidenceInterval_empty hd "" "" (19 / 20)

/-- Counterexample to C4 as stated: with dimension 1 and 50 replicate
attempts that are all discarded, the failure is the empty-sample
quantile exception raised inside the confidence-interval computation,
not a dedicated InsufficientValidReplicatesError. -/
theorem bootstrap_allDiscarded_notDedicatedError :
    (computeBootstrapChaosSobolIndices 1 50 degenerateFit).interval =
      Except.error OTError.emptySampleQuantile ∧
    (computeBootstrapChaosSobolIndices 1 50 degenerateFit).interval ≠
      Except.error OTError.insufficientValidReplicates := by
  have hu : unitEpsContains 1 [2] = false := by
    simp [unitEpsContains]
    norm_num
  have hs := bootstrapAccum_spec 1 50 degenerateFit
  have hfilter : (List.range 50).filter
      (fun i => unitEpsContains 1 (degenerateFit i).1 &&
        unitEpsContains 1 (degenerateFit i).2) = [] := by
    refine List.filter_eq_nil.mpr ?_
    intro a _
    simp [degenerateFit, hu]
  have hi : (computeBootstrapChaosSobolIndices 1 50 degenerateFit).interval =
      Except.error OTError.emptySampleQuantile := by
    simp only [computeBootstrapChaosSobolIndices, hs, hfilter, List.map_nil]
    simpa [computeSobolIndicesConfidenceIntervalDefault] using
      confidenceInterval_empty Nat.one_pos "" "" (19 / 20)
  refine ⟨hi, ?_⟩
  rw [hi]
  intro h
  exact OTError.noConfusion (Except.error.inj h)

/-- Witness for the amended C4 at dimension 1 and 50 replicate attempts
that are all discarded. -/
theorem bootstrap_allDiscarded_raisesEmptySample_witness :
    0 < 1 ∧
    (∀ i, i < 50 →
      (unitEpsContains 1 (degenerateFit i).1 &&
        unitEpsContains 1 (degenerateFit i).2) = false) ∧
    ((computeBootstrapChaosSobolIndices 1 50 degenerateFit).attempts = 50 ∧
     (computeBootstrapChaosSobolIndices 1 50 degenerateFit).interval =
       Except.error OTError.emptySampleQuantile) :=
  ⟨Nat.one_pos, fun i _ => by simp [degenerateFit, unitEpsContains_two],
    bootstrap_allDiscarded_raisesEmptySample 1 50 degenerateFit Nat.one_pos
      (fun i _ => by simp [degenerateFit, unitEpsContains_two])⟩

/-- C6 (amended): the fit performs no sample-count check before the
solve: for every strategy configuration and samples it proceeds to the
least-squares solve, and no error event (in particular no
underdetermined-fit error) is ever raised by the script's own code. -/
theorem fit_noPreSolveCheck (lib : ChaosLibrary R M C) (st : OTState M C)
    (X Y : OTSample) (cfg : FitConfig) :
    PipelineStep.runSolve ∈ (computeChaosSensitivityAux lib st X Y cfg).trace ∧
    ∀ e, PipelineStep.raiseFitError e ∉
      (computeChaosSensitivityAux lib st X Y cfg).trace := by
  obtain ⟨s, q⟩ := cfg
  cases s <;>
    exact ⟨by simp [computeChaosSensitivityAux],
      fun e => by simp [computeChaosSensitivityAux]⟩

/-- Counterexample to C6 as stated: with a candidate basis of 500 terms
and 50 samples under the fixed strategy, the execution trace runs
through the solve with no error raised before it (or at all). -/
theorem underdeterminedFixedFit_reachesSolve :
    sampleX50.rows.length = 50 ∧
    (computeChaosSensitivityAux modelLib emptyState sampleX50 sampleY50 cfgFixed).trace =
      [PipelineStep.buildBasis, PipelineStep.printIndexMax 500,
       PipelineStep.buildFixedStrategy 500, PipelineStep.buildAlgorithm,
       PipelineStep.runSolve, PipelineStep.extractIndices] ∧
    50 < 500 :=
  ⟨by simp [sampleX50], rfl, by decide⟩

/-- C7 (amended): one fit call stores the fitted metamodel and the
sensitivity object into the analysis object's dictionaries under the
output's name, and leaves the binding of every other key unchanged. -/
theorem fit_updatesOnlyOutputEntries (lib : ChaosLibrary R M C) (st : OTState M C)
    (X Y : OTSample) (cfg : FitConfig) (k : String) (hk : k ≠ Y.desc) :
    (computeChaosSensitivityAux lib st X Y cfg).state.metamodel =
      dictSet st.metamodel Y.desc
        (lib.getMetaModel (lib.runAlgorithm X Y
          (adaptiveStrategyOf lib.strataCumulatedCardinal X.dim cfg))) ∧
    (computeChaosSensitivityAux lib st X Y cfg).state.chaosSI =
      dictSet st.chaosSI Y.desc
        (lib.functionalChaosSobolIndices (lib.runAlgorithm X Y
          (adaptiveStrategyOf lib.strataCumulatedCardinal X.dim cfg))) ∧
    dictGet (computeChaosSensitivityAux lib st X Y cfg).state.metamodel k =
      dictGet st.metamodel k ∧
    dictGet (computeChaosSensitivityAux lib st X Y cfg).state.chaosSI k =
      dictGet st.chaosSI k :=
  ⟨rfl, rfl, dictGet_dictSet_ne _ _ _ _ hk, dictGet_dictSet_ne _ _ _ _ hk⟩

/-- Witness for the amended C7 at a concrete library, state and samples,
with the unrelated key named other. -/
theorem fit_updatesOnlyOutputEntries_witness :
    "other" ≠ sampleY50.desc ∧
    ((computeChaosSensitivityAux modelLib otherState sampleX50 sampleY50
        ⟨FitStrategy.cleaning, 2 / 5⟩).state.metamodel =
      dictSet otherState.metamodel sampleY50.desc
        (modelLib.getMetaModel (modelLib.runAlgorithm sampleX50 sampleY50
          (adaptiveStrategyOf modelLib.strataCumulatedCardinal sampleX50.dim
            ⟨FitStrategy.cleaning, 2 / 5⟩))) ∧
    (computeChaosSensitivityAux modelLib otherState sampleX50 sampleY50
        ⟨FitStrategy.cleaning, 2 / 5⟩).state.chaosSI =
      dictSet otherState.chaosSI sampleY50.desc
        (modelLib.functionalChaosSobolIndices (modelLib.runAlgorithm sampleX50 sampleY50
          (adaptiveStrategyOf modelLib.strataCumulatedCardinal sampleX50.dim
            ⟨FitStrategy.cleaning, 2 / 5⟩))) ∧
    dictGet (computeChaosSensitivityAux modelLib otherState sampleX50 sampleY50
        ⟨FitStrategy.cleaning, 2 / 5⟩).state.metamodel "other" =
      dictGet otherState.metamodel "other" ∧
    dictGet (computeChaosSensitivityAux modelLib otherState sampleX50 sampleY50
        ⟨FitStrategy.cleaning, 2 / 5⟩).state.chaosSI "other" =
      dictGet otherState.chaosSI "other") :=
  ⟨by decide,
    fit_updatesOnlyOutputEntries modelLib otherState sampleX50 sampleY50
      ⟨FitStrategy.cleaning, 2 / 5⟩ "other" (by decide)⟩

/-- Counterexample to C7 as stated: a fit call changes the analysis
object's state, adding the fitted record under the output's name. -/
theorem fit_mutatesAnalysisState :
    (computeChaosSensitivityAux modelLib emptyState sampleX50 sampleY50
      ⟨FitStrategy.cleaning, 2 / 5⟩).state ≠ emptyState ∧
    dictGet (computeChaosSensitivityAux modelLib emptyState sampleX50 sampleY50
      ⟨FitStrategy.cleaning, 2 / 5⟩).state.metamodel "dmax" = some 0 := by
  constructor
  · decide
  · decide

/-- C8: refitting the same input sample, output sample and configuration
a second time yields the same first-order and total-order index vectors
and the same stored metamodel as the first fit: the non-bootstrap path
takes no random input. -/
theorem fitTwice_identicalResults (lib : ChaosLibrary R M C) (st : OTState M C)
    (X Y : OTSample) (cfg : FitConfig) :
    (computeChaosSensitivityAux lib
        (computeChaosSensitivityAux lib st X Y cfg).state X Y cfg).S1 =
      (computeChaosSensitivityAux lib st X Y cfg).S1 ∧
    (computeChaosSensitivityAux lib
        (computeChaosSensitivityAux lib st X Y cfg).state X Y cfg).ST =
      (computeChaosSensitivityAux lib st X Y cfg).ST ∧
    dictGet (computeChaosSensitivityAux lib
        (computeChaosSensitivityAux lib st X Y cfg).state X Y cfg).state.metamodel
        Y.desc =
      dictGet (computeChaosSensitivityAux lib st X Y cfg).state.metamodel Y.desc := by
  refine ⟨rfl, rfl, ?_⟩
  exact (dictGet_dictSet_self _ _ _).trans (dictGet_dictSet_self _ _ _).symm

/-- C9 (amended): the fixed branch prints the basis term count
unconditionally: its observable trace does not depend on the sample
count, and it contains no overfitting warning event. -/
theorem fixedFit_printsUnconditionally (lib : ChaosLibrary R M C) (st : OTState M C)
    (X Y : OTSample) (q : ℚ) :
    (computeChaosSensitivityAux lib st X Y ⟨FitStrategy.fixed, q⟩).trace =
      [PipelineStep.buildBasis,
       PipelineStep.printIndexMax (lib.strataCumulatedCardinal X.dim q 2),
       PipelineStep.buildFixedStrategy (lib.strataCumulatedCardinal X.dim q 2),
       PipelineStep.buildAlgorithm, PipelineStep.runSolve,
       PipelineStep.extractIndices] ∧
    PipelineStep.warnOverfitting ∉
      (computeChaosSensitivityAux lib st X Y ⟨FitStrategy.fixed, q⟩).trace :=
  ⟨rfl, by simp [computeChaosSensitivityAux]⟩

/-- Counterexample to C9 as stated: with 500 retained terms, the fixed
branch behaves identically on 50 samples (where K is more than half the
sample count) and on 2000 samples, and flags nothing. -/
theorem fixedFit_noOverfittingFlag :
    (computeChaosSensitivityAux modelLib emptyState sampleX50 sampleY50 cfgFixed).trace =
      (computeChaosSensitivityAux modelLib emptyState sampleX2000 sampleY50 cfgFixed).trace ∧
    PipelineStep.warnOverfitting ∉
      (computeChaosSensitivityAux modelLib emptyState sampleX50 sampleY50 cfgFixed).trace ∧
    50 < 2 * 500 :=
  ⟨rfl, by simp [computeChaosSensitivityAux, cfgFixed, adaptiveStrategyOf, modelLib],
    by decide⟩

/-- C10: every replicate refit in the bootstrap loop is invoked without
strategy arguments, hence uses the default configuration (cleaning
strategy, q = 0.4), whose adaptive strategy is the cleaning strategy
with maximumDimension 200, maximumSize 20 and significanceFactor 1e-4,
whatever strategy the non-bootstrap point estimates used. -/
theorem bootstrapRefits_useDefaultConfig (d B : ℕ) (fit : ℕ → List ℚ × List ℚ)
    (sc : ℕ → ℚ → ℕ → ℕ) (dd : ℕ) :
    (computeBootstrapChaosSobolIndices d B fit).configsUsed =
      List.replicate B defaultFitConfig ∧
    defaultFitConfig = ⟨FitStrategy.cleaning, 2 / 5⟩ ∧
    adaptiveStrategyOf sc dd defaultFitConfig =
      AdaptiveStrategy.cleaningStrategy 200 20 (1 / 10000) := by
  refine ⟨?_, rfl, rfl⟩
  have hs := bootstrapAccum_spec d B fit
  simp [computeBootstrapChaosSobolIndices, hs]
